import Mathlib

/-!
Verification development for the nbodysim event loop (src/main.rs).

The Rust program is embedded shallowly: the per-frame GPU command stream is a
small command language; the particle generator, camera controller and view
matrices are transcribed into exact real arithmetic (f32/f64 operations become
operations on ℝ, cgmath formulas are transcribed from the cgmath source).
-/

set_option autoImplicit false

namespace NBodySim

open Real

/- ===== GPU buffers and the per-frame command stream (RedrawRequested) ===== -/

/-- Named device buffers created by run: the uniform globals buffer, the
two particle storage buffers, and the per-frame staging buffer that is
filled host-side with the new Globals value. -/
inductive Buffer where
  | globalsBuf
  | oldBuf
  | currentBuf
  | stagingGlobals
deriving DecidableEq

/-- Byte stride of one repr(C) Particle: pos 12 + radius 4 + vel 12 + pad 4 +
mass 8 + pad 8. -/
def particleStride : ℕ := 48

/-- Byte size of the repr(C) Globals block: matrix 64 + camera_pos 12 +
particles 4 + delta 4 + pad 12. -/
def globalsSize : ℕ := 96

/-- Commands recorded into a frame's command encoder. -/
inductive Cmd where
  | copyBufferToBuffer (src dst : Buffer) (size : ℕ)
  | renderPass (draws : ℕ)
deriving DecidableEq

/-- The command sequence encoded and submitted by the RedrawRequested handler,
in recording order, for a particle count n: copy the freshly filled staging
globals into the globals buffer, copy the whole current particle buffer into
the old buffer, then record the render pass drawing n points. -/
def redrawCommands (n : ℕ) : List Cmd :=
  [ Cmd.copyBufferToBuffer Buffer.stagingGlobals Buffer.globalsBuf globalsSize,
    Cmd.copyBufferToBuffer Buffer.currentBuf Buffer.oldBuf (n * particleStride),
    Cmd.renderPass n ]

/- ===== Exact-real embedding of the math and the event loop ===== -/

noncomputable section

/-- Gravitational constant G used by generate_galaxy. -/
def G : ℝ := 6.67408e-11

/-- cgmath Vector3 in exact real arithmetic. -/
structure Vec3 where
  x : ℝ
  y : ℝ
  z : ℝ

namespace Vec3

def add (a b : Vec3) : Vec3 := ⟨a.x + b.x, a.y + b.y, a.z + b.z⟩

def sub (a b : Vec3) : Vec3 := ⟨a.x - b.x, a.y - b.y, a.z - b.z⟩

def neg (a : Vec3) : Vec3 := ⟨-a.x, -a.y, -a.z⟩

def smul (c : ℝ) (a : Vec3) : Vec3 := ⟨c * a.x, c * a.y, c * a.z⟩

def dot (a b : Vec3) : ℝ := a.x * b.x + a.y * b.y + a.z * b.z

def cross (a b : Vec3) : Vec3 :=
  ⟨a.y * b.z - a.z * b.y, a.z * b.x - a.x * b.z, a.x * b.y - a.y * b.x⟩

/-- Squared Euclidean length. -/
def normSq (a : Vec3) : ℝ := dot a a

/-- cgmath magnitude: the Euclidean length. -/
def magnitude (a : Vec3) : ℝ := Real.sqrt (normSq a)

/-- cgmath normalize: multiply by one over the magnitude. -/
def normalize (a : Vec3) : Vec3 := smul (1 / magnitude a) a

/-- Component along a coordinate axis (0 = x, 1 = y, 2 = z). -/
def comp (a : Vec3) : Fin 3 → ℝ := ![a.x, a.y, a.z]

end Vec3

/-- cgmath Quaternion: scalar part and vector part. -/
structure Quat where
  s : ℝ
  v : Vec3

namespace Quat

/-- cgmath Quaternion::from_axis_angle. -/
def fromAxisAngle (axis : Vec3) (angle : ℝ) : Quat :=
  ⟨Real.cos (angle / 2), Vec3.smul (Real.sin (angle / 2)) axis⟩

/-- cgmath Quaternion::from_angle_y: rotation about the world y axis. -/
def fromAngleY (angle : ℝ) : Quat :=
  ⟨Real.cos (angle / 2), ⟨0, Real.sin (angle / 2), 0⟩⟩

/-- cgmath Quaternion::rotate_vector, i.e. the Mul<Vector3> impl:
tmp = v × rhs + rhs * s; result = (v × tmp) * 2 + rhs. -/
def rotateVector (q : Quat) (r : Vec3) : Vec3 :=
  Vec3.add (Vec3.smul 2 (Vec3.cross q.v (Vec3.add (Vec3.cross q.v r) (Vec3.smul q.s r)))) r

end Quat

/-- Real cube root, the exact counterpart of f64::cbrt. -/
def cbrt (x : ℝ) : ℝ :=
  if 0 ≤ x then x ^ ((1 : ℝ) / 3) else -((-x) ^ ((1 : ℝ) / 3))

/-- The repr(C) Particle (padding fields omitted: they are constant zero). -/
structure Particle where
  pos : Vec3
  radius : ℝ
  vel : Vec3
  mass : ℝ

/-- Particle::new: the radius is derived from mass and density by solving the
sphere volume V = mass/density, giving r = cbrt(3*m / (4*d*pi)). -/
def Particle.new (pos vel : Vec3) (mass density : ℝ) : Particle :=
  { pos := pos
    radius := cbrt (3 * mass / (4 * density * π))
    vel := vel
    mass := mass }

/-- One particle generated by an iteration of the loop body of generate_galaxy,
as a function of the two uniform random samples drawn there: u (squared to bias
the radius) and angle. -/
def diskParticle (center : Particle) (clockwise : Bool) (u angle : ℝ) : Particle :=
  let radius : ℝ := 4e8 + u ^ 2 * 3e9
  let pos : Vec3 :=
    ⟨center.pos.x + radius * Real.cos angle,
     center.pos.y + radius * Real.sin angle,
     center.pos.z⟩
  let speed : ℝ := Real.sqrt (G * center.mass / radius)
  let vel : Vec3 :=
    ⟨center.vel.x + speed * Real.sin angle * (if clockwise then -1 else 1),
     center.vel.y + speed * Real.cos angle * (if clockwise then 1 else -1),
     center.vel.z⟩
  Particle.new pos vel 0 1.408

/-- The first core particle created in main. -/
def center : Particle :=
  Particle.new ⟨0, 1.5e9, 2e9⟩ ⟨0, 0, -5e4⟩ 1e30 1

/-- The second core particle created in main. -/
def center2 : Particle :=
  Particle.new ⟨0, -1.5e9, -2e9⟩ ⟨0, 0, 5e4⟩ 1e30 1

/-- 4x4 real matrix, the exact counterpart of cgmath Matrix4. -/
abbrev Mat4 := Matrix (Fin 4) (Fin 4) ℝ

/-- cgmath From<PerspectiveFov> for Matrix4, transcribed row-major:
f = cot(fovy/2). -/
def perspectiveMatrix (fovy aspect near far : ℝ) : Mat4 :=
  let f : ℝ := Real.cos (fovy / 2) / Real.sin (fovy / 2)
  Matrix.of
    ![![f / aspect, 0, 0, 0],
      ![0, f, 0, 0],
      ![0, 0, (far + near) / (near - far), 2 * far * near / (near - far)],
      ![0, 0, -1, 0]]

/-- cgmath Matrix4::look_at_dir(eye, dir, up), transcribed row-major. -/
def lookAtDir (eye dir up : Vec3) : Mat4 :=
  let f := dir.normalize
  let s := (f.cross up).normalize
  let u := s.cross f
  Matrix.of
    ![![s.x, s.y, s.z, -(eye.dot s)],
      ![u.x, u.y, u.z, -(eye.dot u)],
      ![-f.x, -f.y, -f.z, eye.dot f],
      ![0, 0, 0, 1]]

/-- cgmath Matrix4::from_translation. -/
def fromTranslation (v : Vec3) : Mat4 :=
  Matrix.of
    ![![1, 0, 0, v.x],
      ![0, 1, 0, v.y],
      ![0, 0, 1, v.z],
      ![0, 0, 0, 1]]

/-- The fixed world up vector (0, 1, 0). -/
def worldUp : Vec3 := ⟨0, 1, 0⟩

/-- build_matrix from the source: perspective(fovy = pi/2, aspect, near = 0.01,
far = 1e25) * look_at_dir(pos, dir, up) * from_translation(pos). -/
def build_matrix (pos dir : Vec3) (aspect : ℝ) : Mat4 :=
  perspectiveMatrix (π / 2) aspect 0.01 1e25 * lookAtDir pos dir worldUp *
    fromTranslation pos

/-- The repr(C) Globals block (padding omitted). -/
structure Globals where
  matrix : Mat4
  camera_pos : Vec3
  particles : ℕ
  delta : ℝ

/-- The keys the event loop distinguishes. -/
inductive Key where
  | digit (i : Fin 10)
  | a
  | d
  | w
  | s
  | space
  | lshift
  | escape
  | f11
  | other
deriving DecidableEq

/-- winit MouseScrollDelta. -/
inductive ScrollDelta where
  | line (c : ℝ)
  | pixel (y : ℝ)

/-- The events the run loop handles that touch core state. -/
inductive Event where
  | mouseMotion (dx dy : ℝ)
  | keyPressed (k : Key)
  | keyReleased (k : Key)
  | mouseWheel (d : ScrollDelta)
  | resized (w h : ℝ)
  | redraw

/-- Scroll units: LineDelta gives c / 8, PixelDelta gives y / 64. -/
def scrollUnits : ScrollDelta → ℝ
  | ScrollDelta.line c => c / 8
  | ScrollDelta.pixel y => y / 64

/-- The ten time-step values set by the digit keys, one match arm per key,
exactly as in the KeyboardInput handler. -/
def timeTable : Fin 10 → ℝ
  | 0 => 0
  | 1 => 10
  | 2 => 20
  | 3 => 40
  | 4 => 80
  | 5 => 160
  | 6 => 320
  | 7 => 640
  | 8 => 1280
  | 9 => 2560

/-- The mutable state of the run loop. -/
structure LoopState where
  globals : Globals
  cameraDir : Vec3
  flySpeed : ℝ
  pressed : Key → Bool
  right : Vec3
  width : ℝ
  height : ℝ

/-- MouseMotion handler: yaw about the world y axis by -dx/300, then pitch the
yawed direction about the current (stale) right axis by dy/300. -/
def stepMotion (st : LoopState) (dx dy : ℝ) : LoopState :=
  let dir1 := (Quat.fromAngleY (-dx / 300)).rotateVector st.cameraDir
  let dir2 := (Quat.fromAxisAngle st.right (dy / 300)).rotateVector dir1
  { st with cameraDir := dir2 }

/-- KeyboardInput (Pressed) handler: digit keys set globals.delta from the
table; every pressed key is inserted into the pressed set. -/
def stepKeyPressed (st : LoopState) (k : Key) : LoopState :=
  let g :=
    match k with
    | Key.digit i => { st.globals with delta := timeTable i }
    | _ => st.globals
  { st with
      globals := g
      pressed := fun k2 => if k2 = k then true else st.pressed k2 }

/-- KeyboardInput (Released) handler: remove the key from the pressed set. -/
def stepKeyReleased (st : LoopState) (k : Key) : LoopState :=
  { st with pressed := fun k2 => if k2 = k then false else st.pressed k2 }

/-- MouseWheel handler: fly_speed *= ((1 + units).min(4)).max(0.25), then
fly_speed = (fly_speed.min(1e10)).max(1e6). -/
def stepWheel (st : LoopState) (d : ScrollDelta) : LoopState :=
  let fs1 := st.flySpeed * max (min (1 + scrollUnits d) 4) 0.25
  let fs2 := max (min fs1 1e10) 1e6
  { st with flySpeed := fs2 }

/-- RedrawRequested handler state update: recompute right from the current
direction, apply held-key movement in source order, then rebuild the view
matrix from the moved position, the direction and the current aspect ratio.
(The discarded-result normalize call on camera_dir has no effect and is
therefore absent.) -/
def stepRedraw (st : LoopState) : LoopState :=
  let right2 := (st.cameraDir.cross worldUp).normalize
  let p0 := st.globals.camera_pos
  let p1 := if st.pressed Key.a then p0.add (Vec3.smul st.flySpeed right2.neg) else p0
  let p2 := if st.pressed Key.d then p1.add (Vec3.smul st.flySpeed right2) else p1
  let p3 := if st.pressed Key.w then p2.add (Vec3.smul st.flySpeed st.cameraDir) else p2
  let p4 := if st.pressed Key.s then p3.add (Vec3.smul st.flySpeed st.cameraDir.neg) else p3
  let p5 := if st.pressed Key.space then { p4 with y := p4.y - st.flySpeed } else p4
  let p6 := if st.pressed Key.lshift then { p5 with y := p5.y + st.flySpeed } else p5
  let m := build_matrix p6 st.cameraDir (st.width / st.height)
  { st with
      right := right2
      globals := { st.globals with camera_pos := p6, matrix := m } }

/-- One transition of the event loop. Escape/F11/CloseRequested only affect
control flow or the window, not the core state. -/
def step (st : LoopState) : Event → LoopState
  | Event.mouseMotion dx dy => stepMotion st dx dy
  | Event.keyPressed k => stepKeyPressed st k
  | Event.keyReleased k => stepKeyReleased st k
  | Event.mouseWheel d => stepWheel st d
  | Event.resized w h => { st with width := w, height := h }
  | Event.redraw => stepRedraw st

/-- Commands submitted while handling one event: only RedrawRequested encodes
and submits work (n is the fixed particle count). -/
def submittedCommands (n : ℕ) : Event → List Cmd
  | Event.redraw => redrawCommands n
  | _ => []

/-- The Globals value built in main: 20002 particles (2 cores + 2 * 10000 disk
particles), camera at (2e10, 0, 0), delta 0. -/
def initGlobals : Globals :=
  { matrix := fromTranslation ⟨0, 0, 0⟩
    camera_pos := ⟨2e10, 0, 0⟩
    particles := 20002
    delta := 0 }

/-- The loop state right before event_loop.run: the camera direction is the
normalized vector from the camera to the origin, the matrix is rebuilt from
it, fly_speed starts at 3e7, no key is pressed, and right is the normalized
cross product of the direction with world up. -/
def initState (w h : ℝ) : LoopState :=
  let dir := (Vec3.neg initGlobals.camera_pos).normalize
  { globals := { initGlobals with matrix := build_matrix initGlobals.camera_pos dir (w / h) }
    cameraDir := dir
    flySpeed := 3e7
    pressed := fun _ => false
    right := (dir.cross worldUp).normalize
    width := w
    height := h }

/-- The loop state after handling a list of events from the initial state. -/
def runState (w h : ℝ) (evs : List Event) : LoopState :=
  evs.foldl step (initState w h)

/-- The set of selectable time-step values. -/
def timeStepSet : Set ℝ := {0, 10, 20, 40, 80, 160, 320, 640, 1280, 2560}

/-- The fly-speed update exactly as the spec sentence words it: multiply by
1 + clamp(scroll_units, -4, 4), then clamp the result to [1e6, 1e10]. -/
def flySpeedSpecUpdate (fs : ℝ) (d : ScrollDelta) : ℝ :=
  max (min (fs * (1 + max (min (scrollUnits d) 4) (-4))) 1e10) 1e6

end

/- ===== Helper lemmas ===== -/

theorem Vec3.normSq_nonneg (v : Vec3) : 0 ≤ v.normSq := by
  obtain ⟨a, b, c⟩ := v
  simp only [Vec3.normSq, Vec3.dot]
  nlinarith [sq_nonneg a, sq_nonneg b, sq_nonneg c]

theorem Vec3.eq_zero_of_normSq_eq_zero {v : Vec3} (h : v.normSq = 0) : v = ⟨0, 0, 0⟩ := by
  obtain ⟨a, b, c⟩ := v
  simp only [Vec3.normSq, Vec3.dot] at h
  have ha : a = 0 := by nlinarith [sq_nonneg a, sq_nonneg b, sq_nonneg c]
  have hb : b = 0 := by nlinarith [sq_nonneg a, sq_nonneg b, sq_nonneg c]
  have hc : c = 0 := by nlinarith [sq_nonneg a, sq_nonneg b, sq_nonneg c]
  simp [ha, hb, hc]

theorem Vec3.normalize_normSq {v : Vec3} (h : v.normSq ≠ 0) : v.normalize.normSq = 1 := by
  have h0 : 0 ≤ v.normSq := v.normSq_nonneg
  have hs : Real.sqrt v.normSq * Real.sqrt v.normSq = v.normSq := Real.mul_self_sqrt h0
  have hne : Real.sqrt v.normSq ≠ 0 := by
    intro h2
    exact h (by rw [← hs, h2, mul_zero])
  obtain ⟨a, b, c⟩ := v
  simp only [Vec3.normalize, Vec3.magnitude, Vec3.smul, Vec3.normSq, Vec3.dot] at *
  field_simp

theorem Vec3.normalize_unit_or_zero (v : Vec3) :
    v.normalize.normSq = 1 ∨ v.normalize = ⟨0, 0, 0⟩ := by
  by_cases h : v.normSq = 0
  · right
    rw [Vec3.eq_zero_of_normSq_eq_zero h]
    simp [Vec3.normalize, Vec3.smul]
  · exact Or.inl (Vec3.normalize_normSq h)

/-- Squared-norm shift of the cgmath rotate_vector formula, an unconditional
polynomial identity over the quaternion components. -/
theorem Quat.rotateVector_normSq_shift (q : Quat) (r : Vec3) :
    (q.rotateVector r).normSq - r.normSq
      = 4 * (q.v.normSq * r.normSq - q.v.dot r ^ 2) * (q.s ^ 2 + q.v.normSq - 1) := by
  obtain ⟨s, ⟨wx, wy, wz⟩⟩ := q
  obtain ⟨rx, ry, rz⟩ := r
  simp only [Quat.rotateVector, Vec3.normSq, Vec3.dot, Vec3.cross, Vec3.add, Vec3.smul]
  ring

/-- Rotation by a unit quaternion preserves the squared norm. -/
theorem Quat.rotateVector_normSq (q : Quat) (r : Vec3)
    (h : q.s ^ 2 + q.v.normSq = 1) :
    (q.rotateVector r).normSq = r.normSq := by
  have key := Quat.rotateVector_normSq_shift q r
  rw [show q.s ^ 2 + q.v.normSq - 1 = 0 by rw [h]; ring, mul_zero] at key
  linarith

theorem Quat.fromAxisAngle_normSq (axis : Vec3) (angle : ℝ) :
    (Quat.fromAxisAngle axis angle).s ^ 2 + (Quat.fromAxisAngle axis angle).v.normSq
      = Real.cos (angle / 2) ^ 2 + Real.sin (angle / 2) ^ 2 * axis.normSq := by
  obtain ⟨ax, ay, az⟩ := axis
  simp only [Quat.fromAxisAngle, Vec3.normSq, Vec3.dot, Vec3.smul]
  ring

theorem Quat.fromAngleY_normSq (angle : ℝ) :
    (Quat.fromAngleY angle).s ^ 2 + (Quat.fromAngleY angle).v.normSq = 1 := by
  simp only [Quat.fromAngleY, Vec3.normSq, Vec3.dot]
  nlinarith [Real.sin_sq_add_cos_sq (angle / 2)]

/-- Rotating about the zero axis (the degenerate normalize output) leaves the
squared norm unchanged as well. -/
theorem Quat.rotateVector_zero_axis_normSq (angle : ℝ) (r : Vec3) :
    ((Quat.fromAxisAngle ⟨0, 0, 0⟩ angle).rotateVector r).normSq = r.normSq := by
  have key := Quat.rotateVector_normSq_shift (Quat.fromAxisAngle ⟨0, 0, 0⟩ angle) r
  have hv : (Quat.fromAxisAngle ⟨0, 0, 0⟩ angle).v.normSq = 0 := by
    simp [Quat.fromAxisAngle, Vec3.smul, Vec3.normSq, Vec3.dot]
  have hd : (Quat.fromAxisAngle ⟨0, 0, 0⟩ angle).v.dot r = 0 := by
    simp [Quat.fromAxisAngle, Vec3.smul, Vec3.dot]
  rw [hv, hd] at key
  norm_num at key
  linarith [key]

theorem stepMotion_normSq (st : LoopState) (dx dy : ℝ)
    (hdir : st.cameraDir.normSq = 1)
    (hright : st.right.normSq = 1 ∨ st.right = ⟨0, 0, 0⟩) :
    (stepMotion st dx dy).cameraDir.normSq = 1 := by
  have h1 : ((Quat.fromAngleY (-dx / 300)).rotateVector st.cameraDir).normSq = 1 := by
    rw [Quat.rotateVector_normSq _ _ (Quat.fromAngleY_normSq _)]
    exact hdir
  simp only [stepMotion]
  rcases hright with h | h
  · rw [Quat.rotateVector_normSq]
    · exact h1
    · rw [Quat.fromAxisAngle_normSq, h, mul_one]
      exact Real.cos_sq_add_sin_sq _
  · rw [h, Quat.rotateVector_zero_axis_normSq]
    exact h1

/-- Camera invariant: the direction has unit squared norm and the right vector
is a unit vector or the zero vector. -/
def camInv (st : LoopState) : Prop :=
  st.cameraDir.normSq = 1 ∧ (st.right.normSq = 1 ∨ st.right = ⟨0, 0, 0⟩)

theorem camInv_step {st : LoopState} (e : Event) (h : camInv st) : camInv (step st e) := by
  obtain ⟨hdir, hright⟩ := h
  cases e with
  | mouseMotion dx dy => exact ⟨stepMotion_normSq st dx dy hdir hright, hright⟩
  | keyPressed k => exact ⟨hdir, hright⟩
  | keyReleased k => exact ⟨hdir, hright⟩
  | mouseWheel d => exact ⟨hdir, hright⟩
  | resized w h2 => exact ⟨hdir, hright⟩
  | redraw => exact ⟨hdir, Vec3.normalize_unit_or_zero _⟩

theorem camInv_initState (w h : ℝ) : camInv (initState w h) := by
  constructor
  · show ((Vec3.neg initGlobals.camera_pos).normalize).normSq = 1
    apply Vec3.normalize_normSq
    simp only [initGlobals, Vec3.neg, Vec3.normSq, Vec3.dot]
    norm_num
  · exact Vec3.normalize_unit_or_zero _

theorem camInv_foldl {st : LoopState} (h : camInv st) (evs : List Event) :
    camInv (evs.foldl step st) := by
  induction evs generalizing st with
  | nil => exact h
  | cons e evs ih => exact ih (camInv_step e h)

theorem camInv_runState (w h : ℝ) (evs : List Event) : camInv (runState w h evs) :=
  camInv_foldl (camInv_initState w h) evs

/- ===== Claim theorems ===== -/

/-- Claim C10: in exact real arithmetic the camera direction has Euclidean
norm 1 initially (it is normalized at startup) and after every sequence of
events: both pointer-motion updates are rotations by quaternions built from
the world-up axis or from the right vector normalized at the preceding redraw
(norm-preserving even in the degenerate zero case), no other handler writes
the direction, and the discarded-result normalize call during redraw is not
part of the model yet the invariant holds. -/
theorem C10_cameraDir_unit_norm (w h : ℝ) (evs : List Event) :
    (runState w h evs).cameraDir.magnitude = 1 := by
  rw [Vec3.magnitude, (camInv_runState w h evs).1, Real.sqrt_one]

/-- Claim C9: a pointer-motion event first yaws the direction about the
world-up axis by -dx/300, then pitches the yawed direction about the right
axis exactly as it was computed at the most recent redraw, by dy/300; the
motion event leaves right unchanged, and right is recomputed from the new
direction only at the start of the next redraw. -/
theorem C9_mouseMotion_stale_right (st : LoopState) (dx dy : ℝ) :
    (step st (Event.mouseMotion dx dy)).cameraDir
      = (Quat.fromAxisAngle st.right (dy / 300)).rotateVector
          ((Quat.fromAngleY (-dx / 300)).rotateVector st.cameraDir)
  ∧ (step st (Event.mouseMotion dx dy)).right = st.right
  ∧ Quat.fromAngleY (-dx / 300) = Quat.fromAxisAngle worldUp (-dx / 300)
  ∧ (step st Event.redraw).cameraDir = st.cameraDir
  ∧ (step st Event.redraw).right = (st.cameraDir.cross worldUp).normalize := by
  refine ⟨rfl, rfl, ?_, rfl, rfl⟩
  simp [Quat.fromAngleY, Quat.fromAxisAngle, worldUp, Vec3.smul]

/-- Claim C8: the view-projection matrix produced by a redraw equals
perspective(fovy = pi/2 = 90 degrees, near = 0.01, far = 1e25, aspect) *
look_at(position, direction, world up (0,1,0)) * translation(position), with
the trailing translation by the camera position composed after the look-at
transform. -/
theorem C8_view_matrix (p d : Vec3) (a : ℝ) (st : LoopState) :
    build_matrix p d a
        = perspectiveMatrix (π / 2) a 0.01 1e25 * lookAtDir p d worldUp * fromTranslation p
  ∧ (step st Event.redraw).globals.matrix
      = build_matrix (step st Event.redraw).globals.camera_pos st.cameraDir
          (st.width / st.height) :=
  ⟨by rfl, by rfl⟩

/-- Claim C1: for any event, every host-issued buffer copy in the submitted
command stream targets only the globals buffer or the old buffer (never the
current particle buffer), and within the redraw submission the copy of the
whole current buffer (particle count times stride bytes) into the old buffer
is recorded before the render pass. -/
theorem C1_redraw_commands (n : ℕ) (e : Event) :
    (∀ src dst sz, Cmd.copyBufferToBuffer src dst sz ∈ submittedCommands n e →
        dst = Buffer.globalsBuf ∨ dst = Buffer.oldBuf)
  ∧ (∃ i j : ℕ, i < j
      ∧ (redrawCommands n)[i]? =
          some (Cmd.copyBufferToBuffer Buffer.currentBuf Buffer.oldBuf (n * particleStride))
      ∧ ∃ m, (redrawCommands n)[j]? = some (Cmd.renderPass m)) := by
  constructor
  · intro src dst sz hmem
    cases e <;> simp only [submittedCommands, List.not_mem_nil] at hmem
    simp only [redrawCommands, List.mem_cons, List.not_mem_nil, or_false] at hmem
    rcases hmem with h | h | h
    · injection h with h1 h2 h3
      exact Or.inl h2
    · injection h with h1 h2 h3
      exact Or.inr h2
    · exact absurd h (by simp)
  · exact ⟨1, 2, by norm_num, by simp [redrawCommands], n, by simp [redrawCommands]⟩

theorem flySpeed_range_step {st : LoopState} (e : Event)
    (h : 1e6 ≤ st.flySpeed ∧ st.flySpeed ≤ 1e10) :
    1e6 ≤ (step st e).flySpeed ∧ (step st e).flySpeed ≤ 1e10 := by
  cases e with
  | mouseWheel d =>
      simp only [step, stepWheel]
      exact ⟨le_max_right _ _, max_le (min_le_right _ _) (by norm_num)⟩
  | mouseMotion dx dy => exact h
  | keyPressed k => exact h
  | keyReleased k => exact h
  | resized w h2 => exact h
  | redraw => exact h

theorem flySpeed_range_foldl {st : LoopState}
    (h : 1e6 ≤ st.flySpeed ∧ st.flySpeed ≤ 1e10) (evs : List Event) :
    1e6 ≤ (evs.foldl step st).flySpeed ∧ (evs.foldl step st).flySpeed ≤ 1e10 := by
  induction evs generalizing st with
  | nil => exact h
  | cons e evs ih => exact ih (flySpeed_range_step e h)

/-- Claim C3: after any finite sequence of scroll events applied from the
initial state (fly_speed 3e7), fly_speed lies in [1e6, 1e10]. -/
theorem C3_flySpeed_range (w h : ℝ) (ds : List ScrollDelta) :
    1e6 ≤ (runState w h (ds.map Event.mouseWheel)).flySpeed
  ∧ (runState w h (ds.map Event.mouseWheel)).flySpeed ≤ 1e10 :=
  flySpeed_range_foldl (by constructor <;> norm_num [initState]) _

theorem timeTable_mem (i : Fin 10) : timeTable i ∈ timeStepSet := by
  fin_cases i <;> simp [timeTable, timeStepSet]

theorem delta_mem_step {st : LoopState} (e : Event)
    (h : st.globals.delta ∈ timeStepSet) :
    (step st e).globals.delta ∈ timeStepSet := by
  cases e <;> try exact h
  case keyPressed k =>
    cases k <;> try exact h
    case digit i => exact timeTable_mem i

theorem delta_mem_foldl {st : LoopState} (h : st.globals.delta ∈ timeStepSet)
    (evs : List Event) : (evs.foldl step st).globals.delta ∈ timeStepSet := by
  induction evs generalizing st with
  | nil => exact h
  | cons e evs ih => exact ih (delta_mem_step e h)

/-- Claim C4: after any sequence of digit-key presses the time step is in
{0, 10, 20, 40, 80, 160, 320, 640, 1280, 2560}; digit i selects the i-th
element of that set in ascending order, and the initial value 0 is in the
set. -/
theorem C4_timeStep (w h : ℝ) (ks : List (Fin 10)) (st : LoopState) (i : Fin 10) :
    (runState w h (ks.map fun j => Event.keyPressed (Key.digit j))).globals.delta ∈ timeStepSet
  ∧ (step st (Event.keyPressed (Key.digit i))).globals.delta = timeTable i
  ∧ (initState w h).globals.delta = 0
  ∧ timeTable 0 = 0 ∧ timeTable 1 = 10 ∧ timeTable 2 = 20 ∧ timeTable 3 = 40
  ∧ timeTable 4 = 80 ∧ timeTable 5 = 160 ∧ timeTable 6 = 320 ∧ timeTable 7 = 640
  ∧ timeTable 8 = 1280 ∧ timeTable 9 = 2560 ∧ (0 : ℝ) ∈ timeStepSet := by
  refine ⟨delta_mem_foldl ?_ _, rfl, rfl, rfl, rfl, rfl, rfl, rfl, rfl, rfl, rfl, rfl, rfl, ?_⟩
  · show (0 : ℝ) ∈ timeStepSet
    simp [timeStepSet]
  · simp [timeStepSet]

theorem max_min_comm (x lo hi : ℝ) (h : lo ≤ hi) :
    max (min x hi) lo = min (max x lo) hi := by
  rw [max_comm, max_min_distrib_left, max_eq_right h, max_comm]

/-- Claim C2 (amended): a scroll event multiplies fly_speed by
clamp(1 + scroll_units, 0.25, 4) (the clamp applies to the whole factor, with
bounds 0.25 and 4), and the resulting fly_speed is clamped to [1e6, 1e10];
scroll_units is delta/8 for line input and delta/64 for pixel input. -/
theorem C2_flySpeed_update (st : LoopState) (d : ScrollDelta) :
    (step st (Event.mouseWheel d)).flySpeed
      = min (max (st.flySpeed * min (max (1 + scrollUnits d) 0.25) 4) 1e6) 1e10 := by
  simp only [step, stepWheel]
  rw [max_min_comm _ _ _ (by norm_num : (0.25:ℝ) ≤ 4),
      max_min_comm _ _ _ (by norm_num : (1e6:ℝ) ≤ 1e10)]

/-- Claim C2 as stated fails: for a line scroll of 32 (scroll_units = 4)
from the initial state, the code multiplies fly_speed 3e7 by the clamped
factor 4 giving 1.2e8, while the claimed formula multiplies by
1 + clamp(4, -4, 4) = 5 giving 1.5e8. -/
theorem C2_counterexample :
    (step (initState 800 600) (Event.mouseWheel (ScrollDelta.line 32))).flySpeed
      ≠ flySpeedSpecUpdate (initState 800 600).flySpeed (ScrollDelta.line 32) := by
  have hfs : (initState 800 600).flySpeed = 3e7 := rfl
  simp only [step, stepWheel, flySpeedSpecUpdate, scrollUnits, hfs]
  norm_num [min_def, max_def]

/-- Claim C6: a particle built by Particle::new stores radius
cbrt(3*m/(4*d*pi)); for m = 1e30, d = 1 that is cbrt(3e30/(4*pi)); for m = 0
(every disk particle, density 1.408) the radius is exactly 0. -/
theorem C6_radius (p v : Vec3) (m d : ℝ) (c : Particle) (cw : Bool) (u a : ℝ) :
    (Particle.new p v m d).radius = cbrt (3 * m / (4 * d * π))
  ∧ (Particle.new p v 1e30 1).radius = cbrt (3e30 / (4 * π))
  ∧ (Particle.new p v 0 1.408).radius = 0
  ∧ (diskParticle c cw u a).radius = 0 := by
  have hzero : cbrt 0 = 0 := by
    rw [cbrt, if_pos le_rfl, Real.zero_rpow (by norm_num)]
  have harg : (3 : ℝ) * 0 / (4 * 1.408 * π) = 0 := by
    rw [mul_zero, zero_div]
  refine ⟨rfl, ?_, ?_, ?_⟩
  · show cbrt (3 * 1e30 / (4 * 1 * π)) = cbrt (3e30 / (4 * π))
    norm_num
  · show cbrt (3 * 0 / (4 * 1.408 * π)) = 0
    rw [harg, hzero]
  · show cbrt (3 * 0 / (4 * 1.408 * π)) = 0
    rw [harg, hzero]

/-- Claim C7 as stated fails: with start positions (0, ±1.5e9, ±2e9) and
velocities (0, 0, ∓5e4), no three pairwise distinct axes carry the 1.5e9
offset, the 2e9 offset and the 5e4 velocity respectively: the velocity lies
on the same axis (z) as the 2e9 position offset. -/
theorem C7_counterexample :
    ¬ ∃ i j k : Fin 3, i ≠ j ∧ i ≠ k ∧ j ≠ k
        ∧ (center.pos.comp i = 1.5e9 ∨ center.pos.comp i = -1.5e9)
        ∧ (center.pos.comp j = 2e9 ∨ center.pos.comp j = -2e9)
        ∧ (center.vel.comp k = 5e4 ∨ center.vel.comp k = -5e4) := by
  rintro ⟨i, j, k, hij, hik, hjk, hi, hj, hk⟩
  fin_cases j <;> fin_cases k <;>
    revert hjk hj hk <;>
    simp [center, Particle.new, Vec3.comp] <;>
    norm_num

/-- Claim C7 (amended): the cores are built with mass 1e30 and density 1.0,
at exactly opposite positions with offsets 1.5e9 on the y axis and 2e9 on the
z axis (x component zero), with opposite velocities of magnitude 5e4 directed
along the z axis — which coincides with the 2e9 position-offset axis rather
than being a third distinct axis. -/
theorem C7_core_particles :
    center.mass = 1e30 ∧ center2.mass = 1e30
  ∧ center = Particle.new ⟨0, 1.5e9, 2e9⟩ ⟨0, 0, -5e4⟩ 1e30 1
  ∧ center2 = Particle.new ⟨0, -1.5e9, -2e9⟩ ⟨0, 0, 5e4⟩ 1e30 1
  ∧ center2.pos = center.pos.neg ∧ center2.vel = center.vel.neg
  ∧ center.pos.x = 0 ∧ center.pos.y = 1.5e9 ∧ center.pos.z = 2e9
  ∧ center.vel.x = 0 ∧ center.vel.y = 0 ∧ center.vel.z = -5e4
  ∧ center.vel.magnitude = 5e4
  ∧ center.pos.z ≠ 0 := by
  have hmag : center.vel.magnitude = 5e4 := by
    have hsq : center.vel.normSq = (5e4 : ℝ) ^ 2 := by
      show (0 : ℝ) * 0 + 0 * 0 + -5e4 * -5e4 = (5e4 : ℝ) ^ 2
      norm_num
    rw [Vec3.magnitude, hsq, Real.sqrt_sq (by norm_num)]
  refine ⟨rfl, rfl, rfl, rfl, ?_, ?_, rfl, rfl, rfl, rfl, rfl, rfl, hmag,
    show (2e9 : ℝ) ≠ 0 by norm_num⟩
  · show Vec3.mk 0 (-1.5e9) (-2e9) = Vec3.neg ⟨0, 1.5e9, 2e9⟩
    simp [Vec3.neg]
  · show Vec3.mk 0 0 5e4 = Vec3.neg ⟨0, 0, -5e4⟩
    simp [Vec3.neg]

/-- Claim C5: a disk particle sampled with u ∈ [0,1) and any angle sits at
distance 4e8 + u^2 * 3e9 ∈ [4e8, 4e8 + 3e9] from its center; its velocity
relative to the center lies in the disk plane (z component 0), is
perpendicular to the radial offset, and has magnitude sqrt(G * M / r); in
particular u = 0 gives distance exactly 4e8 and, for center mass 1e30, speed
sqrt(G * 1e30 / 4e8). -/
theorem C5_disk_particle (c : Particle) (cw : Bool) (u angle : ℝ)
    (h0 : 0 ≤ u) (h1 : u < 1) :
    ((diskParticle c cw u angle).pos.sub c.pos).magnitude = 4e8 + u ^ 2 * 3e9
  ∧ 4e8 ≤ ((diskParticle c cw u angle).pos.sub c.pos).magnitude
  ∧ ((diskParticle c cw u angle).pos.sub c.pos).magnitude ≤ 4e8 + 3e9
  ∧ ((diskParticle c cw u angle).pos.sub c.pos).z = 0
  ∧ ((diskParticle c cw u angle).vel.sub c.vel).z = 0
  ∧ ((diskParticle c cw u angle).vel.sub c.vel).dot
      ((diskParticle c cw u angle).pos.sub c.pos) = 0
  ∧ ((diskParticle c cw u angle).vel.sub c.vel).magnitude
      = Real.sqrt (G * c.mass / (4e8 + u ^ 2 * 3e9))
  ∧ (u = 0 → ((diskParticle c cw u angle).pos.sub c.pos).magnitude = 4e8
      ∧ (c.mass = 1e30 →
          ((diskParticle c cw u angle).vel.sub c.vel).magnitude
            = Real.sqrt (G * 1e30 / 4e8))) := by
  have hrpos : (0 : ℝ) < 4e8 + u ^ 2 * 3e9 := by nlinarith [sq_nonneg u]
  have hrle : 4e8 + u ^ 2 * 3e9 ≤ (4e8 : ℝ) + 3e9 := by nlinarith
  have hpossub : (diskParticle c cw u angle).pos.sub c.pos
      = ⟨(4e8 + u ^ 2 * 3e9) * Real.cos angle, (4e8 + u ^ 2 * 3e9) * Real.sin angle, 0⟩ := by
    simp only [diskParticle, Particle.new, Vec3.sub, Vec3.mk.injEq]
    refine ⟨by ring, by ring, by ring⟩
  have hvelsub : (diskParticle c cw u angle).vel.sub c.vel
      = ⟨Real.sqrt (G * c.mass / (4e8 + u ^ 2 * 3e9)) * Real.sin angle *
            (if cw then (-1 : ℝ) else 1),
         Real.sqrt (G * c.mass / (4e8 + u ^ 2 * 3e9)) * Real.cos angle *
            (if cw then (1 : ℝ) else -1), 0⟩ := by
    simp only [diskParticle, Particle.new, Vec3.sub, Vec3.mk.injEq]
    refine ⟨by ring, by ring, by ring⟩
  have hmagpos : ((diskParticle c cw u angle).pos.sub c.pos).magnitude
      = 4e8 + u ^ 2 * 3e9 := by
    rw [hpossub, Vec3.magnitude]
    have hnsq : (Vec3.mk ((4e8 + u ^ 2 * 3e9) * Real.cos angle)
        ((4e8 + u ^ 2 * 3e9) * Real.sin angle) 0).normSq = (4e8 + u ^ 2 * 3e9) ^ 2 := by
      simp only [Vec3.normSq, Vec3.dot]
      linear_combination (4e8 + u ^ 2 * 3e9) ^ 2 * Real.sin_sq_add_cos_sq angle
    rw [hnsq, Real.sqrt_sq hrpos.le]
  have hmagvel : ((diskParticle c cw u angle).vel.sub c.vel).magnitude
      = Real.sqrt (G * c.mass / (4e8 + u ^ 2 * 3e9)) := by
    rw [hvelsub, Vec3.magnitude]
    have hnsq : (Vec3.mk (Real.sqrt (G * c.mass / (4e8 + u ^ 2 * 3e9)) * Real.sin angle *
          (if cw then (-1 : ℝ) else 1))
        (Real.sqrt (G * c.mass / (4e8 + u ^ 2 * 3e9)) * Real.cos angle *
          (if cw then (1 : ℝ) else -1)) 0).normSq
        = Real.sqrt (G * c.mass / (4e8 + u ^ 2 * 3e9)) ^ 2 := by
      cases cw <;> simp only [Vec3.normSq, Vec3.dot, if_true, if_false,
          Bool.false_eq_true, eq_self_iff_true] <;>
        linear_combination (Real.sqrt (G * c.mass / (4e8 + u ^ 2 * 3e9))) ^ 2 *
          Real.sin_sq_add_cos_sq angle
    rw [hnsq, Real.sqrt_sq (Real.sqrt_nonneg _)]
  have hdot : ((diskParticle c cw u angle).vel.sub c.vel).dot
      ((diskParticle c cw u angle).pos.sub c.pos) = 0 := by
    rw [hvelsub, hpossub]
    cases cw <;> simp only [Vec3.dot, if_true, if_false,
      Bool.false_eq_true, eq_self_iff_true] <;> ring
  refine ⟨hmagpos, ?_, ?_, ?_, ?_, hdot, hmagvel, ?_⟩
  · rw [hmagpos]; nlinarith [sq_nonneg u]
  · rw [hmagpos]; exact hrle
  · rw [hpossub]
  · rw [hvelsub]
  · intro hu
    constructor
    · rw [hmagpos, hu]; norm_num
    · intro hm
      rw [hmagvel, hu, hm]
      norm_num

/-- Witness for C5: the concrete instantiation at the first core particle,
clockwise disk, u = 0, angle = 0 discharges both hypotheses. -/
theorem C5_disk_particle_witness :
    ((0 : ℝ) ≤ 0 ∧ (0 : ℝ) < 1)
  ∧ (((diskParticle center true 0 0).pos.sub center.pos).magnitude = 4e8 + (0 : ℝ) ^ 2 * 3e9
    ∧ 4e8 ≤ ((diskParticle center true 0 0).pos.sub center.pos).magnitude
    ∧ ((diskParticle center true 0 0).pos.sub center.pos).magnitude ≤ 4e8 + 3e9
    ∧ ((diskParticle center true 0 0).pos.sub center.pos).z = 0
    ∧ ((diskParticle center true 0 0).vel.sub center.vel).z = 0
    ∧ ((diskParticle center true 0 0).vel.sub center.vel).dot
        ((diskParticle center true 0 0).pos.sub center.pos) = 0
    ∧ ((diskParticle center true 0 0).vel.sub center.vel).magnitude
        = Real.sqrt (G * center.mass / (4e8 + (0 : ℝ) ^ 2 * 3e9))
    ∧ ((0 : ℝ) = 0 → ((diskParticle center true 0 0).pos.sub center.pos).magnitude = 4e8
        ∧ (center.mass = 1e30 →
            ((diskParticle center true 0 0).vel.sub center.vel).magnitude
              = Real.sqrt (G * 1e30 / 4e8)))) :=
  ⟨⟨le_refl 0, by norm_num⟩, C5_disk_particle center true 0 0 (le_refl 0) (by norm_num)⟩

end NBodySim
